import Mathlib

/-!
Verification of the BRICK event-ingestion subsystem: a shallow embedding of
the MCP server request handler (mcp-server), the git polling watcher
(electron/git-watcher.cjs) and the debounced file watcher
(electron/file-watcher.cjs), with theorems about their event logs, listener
fan-out, filtering, debouncing and lifecycle behaviour.

Conventions of the embedding:
* JavaScript objects carried over JSON-RPC are modelled by the inductive `J`.
* Mutable module state (logs, listener sets, watch state) is passed
  explicitly; each translated function returns its updated state.
* A listener callback is a pure function returning `Except String Unit`;
  an `Except.error` result models the callback throwing.  The notify loops
  translate the source try/catch: a throwing listener is caught and the
  loop continues.
* Wall-clock readings (`new Date().toISOString()`, timer deadlines) are
  supplied as explicit parameters.
* git subprocess invocations are modelled by an environment record carrying
  the repository contents and one failure flag per kind of invocation; a
  raised subprocess error corresponds to the flag being set.
-/

namespace Brick

/-- Minimal model of a JSON value (JavaScript object) as used in the
JSON-RPC envelopes of the MCP server. -/
inductive J where
  | str : String → J
  | int : Int → J
  | bool : Bool → J
  | null : J
  | arr : List J → J
  | obj : List (String × J) → J
deriving Inhabited

/-- Property lookup `v[k]` on a JSON value: `none` models JavaScript
`undefined` (missing key, or property access on a non-object). -/
def jGet : J → String → Option J
  | .obj kvs, k => (kvs.find? (fun kv => kv.1 == k)).map (fun kv => kv.2)
  | _, _ => none

/-- Optional-chained lookup `v?.k`. -/
def jGetOpt (o : Option J) (k : String) : Option J :=
  o.bind (fun v => jGet v k)

/-- JavaScript truthiness of a JSON value (`false`, `0`, `""` and `null`
are falsy; arrays and objects are always truthy). -/
def jTruthy : J → Bool
  | .str s => s != ""
  | .int n => n != 0
  | .bool b => b
  | .null => false
  | .arr _ => true
  | .obj _ => true

mutual

/-- JavaScript string coercion of a JSON value, as performed by a template
literal: strings verbatim, arrays joined with commas (with null elements
rendered empty), objects as the standard object tag. -/
def jDisplay : J → String
  | .str s => s
  | .int n => toString n
  | .bool b => if b then "true" else "false"
  | .null => "null"
  | .arr xs => String.intercalate "," (jDisplayElems xs)
  | .obj _ => "[object Object]"

/-- String coercion of array elements (JavaScript renders null/undefined
elements as the empty string inside a joined array). -/
def jDisplayElems : List J → List String
  | [] => []
  | .null :: xs => "" :: jDisplayElems xs
  | x :: xs => jDisplay x :: jDisplayElems xs

end

/-- String coercion of a possibly-undefined value in a template literal. -/
def jDisplayOpt : Option J → String
  | some v => jDisplay v
  | none => "undefined"

/-- A parsed JSON-RPC request `{id, method, params}`. -/
structure JsonRpcRequest where
  id : J
  method : String
  params : Option J

/-- `jsonRpcResponse(id, result)` from mcp-server. -/
def jsonRpcResponse (id : J) (result : J) : J :=
  .obj [("jsonrpc", .str "2.0"), ("id", id), ("result", result)]

/-- `jsonRpcError(id, code, message)` from mcp-server. -/
def jsonRpcError (id : J) (code : Int) (message : String) : J :=
  .obj [("jsonrpc", .str "2.0"), ("id", id),
        ("error", .obj [("code", .int code), ("message", .str message)])]

namespace Mcp

/-- Protocol constant of the MCP server. -/
def PROTOCOL_VERSION : String := "2024-11-05"

/-- Server identity record of the MCP server. -/
def SERVER_INFO : J := .obj [("name", .str "brick"), ("version", .str "1.0.0")]

/-- The single tool descriptor exposed by the server (free-text description
fields abridged; the schema shape is the one from the source). -/
def LOG_PROGRESS_TOOL : J :=
  .obj [("name", .str "log_progress"),
        ("description", .str "Send a short, clear summary of what you just did or are about to do in the code. This will be used to generate social/media posts about your work."),
        ("inputSchema", .obj
          [("type", .str "object"),
           ("properties", .obj
             [("summary", .obj
               [("type", .str "string"),
                ("description", .str "A concise, natural-language summary of the change or decision. Keep under 120 characters.")])]),
           ("required", .arr [.str "summary"])])]

/-- A progress event `{summary, timestamp, sessionId}`. -/
structure ProgressEvent where
  summary : String
  timestamp : String
  sessionId : String
deriving Repr, DecidableEq

/-- A registered progress listener: a label (its registration identity) and
its callback; an `Except.error` result models the callback throwing. -/
abbrev ProgressListener := Nat × (ProgressEvent → Except String Unit)

/-- The mutable module state touched by `handleMcpRequest`: the progress
log array and the set of registered progress listeners. -/
structure McpState where
  progressLog : List ProgressEvent
  progressListeners : List ProgressListener

/-- The notify loop of the `tools/call` branch: every listener is called
with the event; a throwing listener is caught (and logged), so the loop
continues and no exception propagates.  The result is the call trace:
which listener was invoked with which event. -/
def notifyProgressListeners : List ProgressListener → ProgressEvent → List (Nat × ProgressEvent)
  | [], _ => []
  | l :: rest, e =>
    match l.2 e with
    | .ok _ => (l.1, e) :: notifyProgressListeners rest e
    | .error _ => (l.1, e) :: notifyProgressListeners rest e

/-- The strict comparison `toolName !== "log_progress"` (negated): true
exactly when the name parameter is that precise string. -/
def isLogProgress : Option J → Bool
  | some (.str s) => s == "log_progress"
  | _ => false

/-- `params?.arguments || {}` — the arguments object of a tools/call
request, defaulting to the empty object when absent or falsy. -/
def mcpCallArgs (params : Option J) : J :=
  match jGetOpt params "arguments" with
  | some v => if jTruthy v then v else .obj []
  | none => .obj []

/-- The check `!summary || typeof summary !== "string"`: the argument is
valid exactly when it is a non-empty string. -/
def validSummary : Option J → Option String
  | some (.str s) => if s == "" then none else some s
  | _ => none

/-- `handleMcpRequest(request, sessionId)`: dispatch one JSON-RPC request.
Returns the updated module state, the response (`none` for notifications)
and the listener call trace of this request.  `now` is the wall-clock
reading used for the event timestamp. -/
def handleMcpRequest (st : McpState) (request : JsonRpcRequest) (sessionId : String)
    (now : String) : McpState × Option J × List (Nat × ProgressEvent) :=
  let id := request.id
  if request.method == "initialize" then
    (st, some (jsonRpcResponse id (.obj
      [("protocolVersion", .str PROTOCOL_VERSION),
       ("capabilities", .obj [("tools", .obj [])]),
       ("serverInfo", SERVER_INFO)])), [])
  else if request.method == "notifications/initialized"
      || request.method == "notifications/cancelled" then
    (st, none, [])
  else if request.method == "ping" then
    (st, some (jsonRpcResponse id (.obj [])), [])
  else if request.method == "tools/list" then
    (st, some (jsonRpcResponse id (.obj [("tools", .arr [LOG_PROGRESS_TOOL])])), [])
  else if request.method == "tools/call" then
    let toolName := jGetOpt request.params "name"
    if !isLogProgress toolName then
      (st, some (jsonRpcError id (-32602) ("Unknown tool: " ++ jDisplayOpt toolName)), [])
    else
      match validSummary (jGet (mcpCallArgs request.params) "summary") with
      | none =>
        (st, some (jsonRpcError id (-32602) "Missing or invalid \"summary\" argument"), [])
      | some s =>
        let event : ProgressEvent := ⟨s, now, sessionId⟩
        ({ st with progressLog := st.progressLog ++ [event] },
         some (jsonRpcResponse id (.obj [("content", .arr
           [.obj [("type", .str "text"),
                  ("text", .str ("Progress logged: \"" ++ s ++ "\""))]])])),
         notifyProgressListeners st.progressListeners event)
  else
    (st, some (jsonRpcError id (-32601) ("Method not found: " ++ request.method)), [])

/-- Example listener that returns normally. -/
def wListenerOk : ProgressEvent → Except String Unit := fun _ => .ok ()

/-- Example listener that throws. -/
def wListenerThrows : ProgressEvent → Except String Unit := fun _ => .error "boom"

/-- Concrete MCP module state with two registered listeners, the second of
which throws. -/
def wMcpState : McpState :=
  { progressLog := [], progressListeners := [(0, wListenerOk), (1, wListenerThrows)] }

/-- Concrete valid `log_progress` tools/call request. -/
def wLogReq : JsonRpcRequest :=
  { id := .int 1, method := "tools/call",
    params := some (.obj [("name", .str "log_progress"),
                          ("arguments", .obj [("summary", .str "fixed bug")])]) }

/-- Concrete tools/call request naming an unknown tool. -/
def wBadToolReq : JsonRpcRequest :=
  { id := .int 2, method := "tools/call",
    params := some (.obj [("name", .str "other_tool"),
                          ("arguments", .obj [("summary", .str "fixed bug")])]) }

/-- A session record of the registry: whether a push (SSE) stream is
currently attached to it. -/
structure McpSession where
  sseOpen : Bool
deriving Repr, DecidableEq

/-- The server lifecycle state: whether the http server object exists
(`server !== null`) and the session registry. -/
structure McpServerState where
  server : Bool
  sessions : List (String × McpSession)
deriving Repr, DecidableEq

/-- stopServer(): when no server is running it resolves at once, leaving
the state untouched; otherwise it ends every attached push stream (stream
errors are caught in the source), clears the session registry and closes
the server.  The source has no throwing path, so the translation is a
total function. -/
def stopServer (st : McpServerState) : McpServerState :=
  if !st.server then st
  else { server := false, sessions := [] }

end Mcp

namespace GitW

/-- A commit of the watched repository, together with the repository-side
data the modelled git invocations return for it (`stat` and `diffText` are
what `git diff --stat` and the full `git diff` print for this commit). -/
structure Commit where
  hash : String
  author : String
  date : String
  subject : String
  stat : String
  diffText : String
deriving Repr, DecidableEq

/-- A CommitEvent as pushed to the commit log (the `commit` sub-object is
flattened into the four hash/author/date/message fields). -/
structure CommitEvent where
  repoPath : String
  branch : String
  hash : String
  author : String
  date : String
  message : String
  diff : String
  timestamp : Nat
deriving Repr, DecidableEq

/-- The environment of one poll tick: the repository contents as seen by
git (history in ancestor-to-descendant order, HEAD last) and one failure
flag per kind of git invocation (a set flag models the subprocess
rejecting on that tick). -/
structure TickEnv where
  history : List Commit
  headFails : Bool
  logFails : Bool
  diffFails : Bool
  branch : String
  branchFails : Bool
deriving Repr, DecidableEq

/-- The singleton watch state; `timerId` identifies the poll interval
timer installed by the startWatching call that created this state. -/
structure WatchState where
  repoPath : String
  lastCommitHash : Option String
  timerId : Nat
deriving Repr, DecidableEq

/-- The git watcher module state: the optional watch state, the set of
interval timers that have been installed and not yet cleared, the commit
event log, and a counter supplying fresh timer identities. -/
structure GitModState where
  watchState : Option WatchState
  activeTimers : List Nat
  commitLog : List CommitEvent
  nextTimer : Nat
deriving Repr, DecidableEq

/-- getLatestCommitHash: `git rev-parse HEAD`, null on failure (also for
an empty repository, where the invocation fails). -/
def getLatestCommitHash (env : TickEnv) : Option String :=
  if env.headFails then none
  else env.history.getLast?.map (fun c => c.hash)

/-- Commits strictly after the commit with the given hash, in
ancestor-to-descendant order; `none` when the hash is not in the history
(in which case the git invocation fails). -/
def commitsSince : List Commit → String → Option (List Commit)
  | [], _ => none
  | c :: rest, h => if c.hash = h then some rest else commitsSince rest h

/-- getNewCommitsSince: `git log sinceHash..HEAD` prints the new commits
newest first; any failure is caught and yields the empty list. -/
def getNewCommitsSince (env : TickEnv) (sinceHash : String) : List Commit :=
  if env.logFails then []
  else
    match commitsSince env.history sinceHash with
    | some cs => cs.reverse
    | none => []

/-- Truncation of very long diffs with an explicit marker. -/
def truncateDiff (diff : String) : String :=
  if diff.length > 5000 then (diff.take 5000).append "\n... (diff truncated)" else diff

/-- getCommitDiff: stat plus truncated full diff; every failure is caught,
falling back to the placeholder string. -/
def getCommitDiff (env : TickEnv) (c : Commit) : String :=
  if env.diffFails then "(unable to get diff)"
  else c.stat ++ "\n\n" ++ truncateDiff c.diffText

/-- getCurrentBranch: branch name, with failures caught as "unknown". -/
def getCurrentBranch (env : TickEnv) : String :=
  if env.branchFails then "unknown" else env.branch

/-- The CommitEvent built for one new commit inside the poll loop. -/
def mkCommitEvent (repoPath : String) (env : TickEnv) (now : Nat) (c : Commit) : CommitEvent :=
  { repoPath := repoPath, branch := getCurrentBranch env, hash := c.hash,
    author := c.author, date := c.date, message := c.subject,
    diff := getCommitDiff env c, timestamp := now }

/-- pollForCommits(): one poll tick.  Returns the updated module state and
the CommitEvents emitted (appended to the log and handed to listeners) on
this tick.  Mirrors the source: early return when not watching or when the
HEAD query fails; events only when a previous watermark exists and HEAD
moved; the watermark then advances to the current HEAD unconditionally. -/
def pollForCommits (env : TickEnv) (now : Nat) (st : GitModState) :
    GitModState × List CommitEvent :=
  match st.watchState with
  | none => (st, [])
  | some ws =>
    match getLatestCommitHash env with
    | none => (st, [])
    | some currentHash =>
      let newEvents :=
        match ws.lastCommitHash with
        | none => []
        | some lastHash =>
          if currentHash = lastHash then []
          else ((getNewCommitsSince env lastHash).reverse).map (mkCommitEvent ws.repoPath env now)
      ({ st with
          watchState := some { ws with lastCommitHash := some currentHash },
          commitLog := st.commitLog ++ newEvents },
       newEvents)

/-- stopWatching(): clears the poll interval timer and the watch state;
a no-op when nothing is being watched.  The commit log is untouched. -/
def stopWatching (st : GitModState) : GitModState :=
  match st.watchState with
  | none => st
  | some ws =>
    { st with watchState := none,
              activeTimers := st.activeTimers.filter (fun t => t != ws.timerId) }

/-- The environment of one startWatching call: validation outcome and the
repository contents at that moment. -/
structure StartEnv where
  dirExists : Bool
  isRepo : Bool
  repoRoot : String
  branch : String
  history : List Commit
deriving Repr, DecidableEq

/-- The `{success, error?}`-shaped result of startWatching. -/
structure StartResult where
  success : Bool
  error : Option String
deriving Repr, DecidableEq

/-- startWatching(repoPath): first stops any existing watch, then
validates the repository; on success captures the current HEAD as the
watermark and installs a fresh poll interval timer. -/
def startWatching (env : StartEnv) (st : GitModState) : GitModState × StartResult :=
  let st := stopWatching st
  if !env.dirExists then (st, ⟨false, some "Directory does not exist"⟩)
  else if !env.isRepo then (st, ⟨false, some "Not a git repository"⟩)
  else
    ({ st with
        watchState := some { repoPath := env.repoRoot,
                             lastCommitHash := env.history.getLast?.map (fun c => c.hash),
                             timerId := st.nextTimer },
        activeTimers := st.activeTimers ++ [st.nextTimer],
        nextTimer := st.nextTimer + 1 },
     ⟨true, none⟩)

/-- One externally-triggered operation on the git watcher. -/
inductive GitOp where
  | start : StartEnv → GitOp
  | stop : GitOp
  | poll : TickEnv → Nat → GitOp

/-- Apply one operation to the module state. -/
def gitStep (st : GitModState) : GitOp → GitModState
  | .start env => (startWatching env st).1
  | .stop => stopWatching st
  | .poll env now => (pollForCommits env now st).1

/-- Run a sequence of operations. -/
def gitRun (st : GitModState) (ops : List GitOp) : GitModState :=
  ops.foldl gitStep st

/-- The module state at process start. -/
def gitInit : GitModState :=
  { watchState := none, activeTimers := [], commitLog := [], nextTimer := 0 }

/-- The single-watch invariant: the live poll timers are exactly the one
belonging to the current watch state (none when not watching). -/
def TimerInv (st : GitModState) : Prop :=
  match st.watchState with
  | some ws => st.activeTimers = [ws.timerId]
  | none => st.activeTimers = []

/-- Concrete commits for the witness scenarios. -/
def wCommit0 : Commit := ⟨"h0", "ada", "d0", "first", "s0", "D0"⟩

/-- Second concrete commit. -/
def wCommit1 : Commit := ⟨"h1", "ada", "d1", "second", "s1", "D1"⟩

/-- Third concrete commit. -/
def wCommit2 : Commit := ⟨"h2", "ada", "d2", "third", "s2", "D2"⟩

/-- Fourth concrete commit. -/
def wCommit3 : Commit := ⟨"h3", "ada", "d3", "fourth", "s3", "D3"⟩

/-- Fully successful tick environment over the four-commit history. -/
def wTickOk : TickEnv :=
  { history := [wCommit0, wCommit1, wCommit2, wCommit3],
    headFails := false, logFails := false, diffFails := false,
    branch := "main", branchFails := false }

/-- Module state watching at watermark h0 with timer 0. -/
def wGitState : GitModState :=
  { watchState := some ⟨"/repo", some "h0", 0⟩,
    activeTimers := [0], commitLog := [], nextTimer := 1 }

/-- Tick whose `git log` invocation fails while HEAD has advanced to h1. -/
def wTickLogFails : TickEnv :=
  { history := [wCommit0, wCommit1],
    headFails := false, logFails := true, diffFails := false,
    branch := "main", branchFails := false }

/-- Later fully successful tick, after one more commit h2 has landed. -/
def wTickLater : TickEnv :=
  { history := [wCommit0, wCommit1, wCommit2],
    headFails := false, logFails := false, diffFails := false,
    branch := "main", branchFails := false }

/-- Tick environment whose HEAD query (`git rev-parse HEAD`) fails. -/
def wTickHeadFails : TickEnv :=
  { history := [wCommit0, wCommit1],
    headFails := true, logFails := false, diffFails := false,
    branch := "main", branchFails := false }

/-- Successful start environment over a one-commit history. -/
def wStartEnv : StartEnv :=
  { dirExists := true, isRepo := true, repoRoot := "/repo",
    branch := "main", history := [wCommit0] }

/-- Tick environment matching `wStartEnv` with no new commit. -/
def wTickNoNew : TickEnv :=
  { history := [wCommit0],
    headFails := false, logFails := false, diffFails := false,
    branch := "main", branchFails := false }

end GitW

namespace FileW

/-- JavaScript `path.split(sep)` with the POSIX separator, on the
character list. -/
def splitOnSep : List Char → List (List Char)
  | [] => [[]]
  | c :: cs =>
    if c == '/' then [] :: splitOnSep cs
    else
      match splitOnSep cs with
      | [] => [[c]]
      | g :: gs => (c :: g) :: gs

/-- JavaScript `filePath.split(path.sep)`. -/
def splitPath (p : String) : List String :=
  (splitOnSep p.toList).map String.mk

/-- JavaScript `s.startsWith(pre)`. -/
def strStartsWith (s pre : String) : Bool :=
  pre.toList.isPrefixOf s.toList

/-- JavaScript `s.toLowerCase()` (ASCII, which covers every pattern and
extension in play). -/
def strToLower (s : String) : String :=
  String.mk (s.toList.map Char.toLower)

/-- Node path.basename on POSIX paths: trailing separators are dropped,
then the part after the last separator is returned.  (For an all-separator
path this model returns the empty string where Node returns "/"; no
watched filename is of that form.) -/
def stripTrailingSeps (p : String) : String :=
  String.mk ((p.toList.reverse.dropWhile (fun c => c == '/')).reverse)

/-- Node path.basename. -/
def pathBasename (p : String) : String :=
  (splitPath (stripTrailingSeps p)).getLastD ""

/-- Node path.extname: the suffix of the basename from its last dot, empty
when the basename has no dot, when its only dot is the leading character
(dotfiles), or when it consists solely of dots. -/
def pathExtname (p : String) : String :=
  let b := (pathBasename p).toList
  if b.all (fun c => c == '.') then ""
  else
    let afterRev := b.reverse.takeWhile (fun c => c != '.')
    if afterRev.length = b.length then ""
    else
      let idx := b.length - afterRev.length - 1
      if idx = 0 then "" else String.mk (b.drop idx)

/-- DEFAULT_IGNORE_PATTERNS from file-watcher. -/
def DEFAULT_IGNORE_PATTERNS : List String :=
  ["node_modules", ".git", ".next", ".nuxt", "dist", "build", "out",
   ".cache", ".turbo", "__pycache__", ".pytest_cache", "target", "vendor",
   ".idea", ".vscode", ".DS_Store", "Thumbs.db", "package-lock.json",
   "yarn.lock", "pnpm-lock.yaml", "Cargo.lock", "Gemfile.lock", "poetry.lock"]

/-- WATCHED_EXTENSIONS from file-watcher. -/
def WATCHED_EXTENSIONS : List String :=
  [".ts", ".tsx", ".js", ".jsx", ".mjs", ".cjs",
   ".py", ".rb", ".go", ".rs", ".java", ".kt", ".scala",
   ".c", ".cpp", ".h", ".hpp", ".cs",
   ".swift", ".m", ".mm",
   ".vue", ".svelte", ".astro",
   ".html", ".css", ".scss", ".less",
   ".json", ".yaml", ".yml", ".toml",
   ".md", ".mdx", ".txt",
   ".sql", ".graphql", ".gql",
   ".sh", ".bash", ".zsh",
   ".dockerfile", ".tf", ".hcl",
   ".env.example", ".gitignore"]

/-- PRIVACY_PATTERNS from file-watcher. -/
def PRIVACY_PATTERNS : List String :=
  [".env", ".env.local", ".env.production", "secrets", "credentials",
   "private", ".pem", ".key", ".cert", ".p12"]

/-- Helper for substring containment: does `sub` occur starting at any
position of the list? -/
def strIncludesAux (sub : List Char) : List Char → Bool
  | [] => sub.isEmpty
  | c :: cs => sub.isPrefixOf (c :: cs) || strIncludesAux sub cs

/-- JavaScript `s.includes(sub)` (substring containment). -/
def strIncludes (s sub : String) : Bool :=
  strIncludesAux sub.toList s.toList

/-- shouldIgnore(filePath): some path segment equals or prefix-matches one
of the default or custom ignore patterns. -/
def shouldIgnore (customIgnorePatterns : List String) (filePath : String) : Bool :=
  (splitPath filePath).any (fun part =>
    (DEFAULT_IGNORE_PATTERNS ++ customIgnorePatterns).any (fun pat =>
      part == pat || strStartsWith part pat))

/-- hasWatchedExtension(filePath): the lower-cased extension is in the
allow-list; extensionless files are accepted only for the listed
convention basenames. -/
def hasWatchedExtension (filePath : String) : Bool :=
  let ext := strToLower (pathExtname filePath)
  if ext == "" then
    ["Dockerfile", "Makefile", "Procfile", "Rakefile", "Gemfile"].contains (pathBasename filePath)
  else
    WATCHED_EXTENSIONS.contains ext

/-- isPrivacySensitive(filePath): the basename equals or prefix-matches a
privacy pattern, or the lower-cased full path contains it. -/
def isPrivacySensitive (filePath : String) : Bool :=
  let b := pathBasename filePath
  let fullPath := strToLower filePath
  PRIVACY_PATTERNS.any (fun pat =>
    b == pat || strStartsWith b pat || strIncludes fullPath pat)

/-- One entry of the `files` array of a FileChangeEvent. -/
structure FileEntry where
  path : String
  type : String
  sensitive : Bool
  extension : String
deriving Repr, DecidableEq

/-- A batched FileChangeEvent (timestamps are model time numbers). -/
structure FileChangeEvent where
  folderPath : String
  files : List FileEntry
  fileCount : Nat
  timestamp : Nat
  summary : String
deriving Repr, DecidableEq

/-- Increment the per-extension counter, JavaScript-object style: existing
keys keep their insertion position, new keys are appended. -/
def bumpCount (acc : List (String × Nat)) (k : String) : List (String × Nat) :=
  if acc.any (fun kv => kv.1 == k) then
    acc.map (fun kv => if kv.1 == k then (kv.1, kv.2 + 1) else kv)
  else acc ++ [(k, 1)]

/-- Insertion step of the stable most-frequent-first sort (JavaScript
`Array.sort` with a count-difference comparator is stable). -/
def insertByCountDesc (x : String × Nat) : List (String × Nat) → List (String × Nat)
  | [] => [x]
  | y :: ys => if y.2 ≤ x.2 then x :: y :: ys else y :: insertByCountDesc x ys

/-- Stable sort of the per-extension counters, most frequent first. -/
def sortByCountDesc : List (String × Nat) → List (String × Nat)
  | [] => []
  | x :: xs => insertByCountDesc x (sortByCountDesc xs)

/-- buildChangeSummary(files): count changed files per extension (empty
extension counted as "other"), stable-sort most-frequent-first, keep at
most four categories. -/
def buildChangeSummary (files : List FileEntry) : String :=
  let byExtension := files.foldl (fun acc f =>
    bumpCount acc (if f.extension == "" then "other" else f.extension)) []
  let parts := ((sortByCountDesc byExtension).take 4).map
    (fun kv => toString kv.2 ++ " " ++ kv.1)
  toString files.length ++ " file(s) changed: " ++ String.intercalate ", " parts

/-- The `files` entry built for one pending change. -/
def fileEntryOf (relativePath changeType : String) : FileEntry :=
  { path := relativePath, type := changeType,
    sensitive := isPrivacySensitive relativePath,
    extension := pathExtname relativePath }

/-- emitChanges(folderPath, changes): nothing is emitted for an empty
batch; otherwise one FileChangeEvent is built from the drained map. -/
def emitChangesEvent (folderPath : String) (changes : List (String × String)) (now : Nat) :
    Option FileChangeEvent :=
  if changes.isEmpty then none
  else
    let files := changes.map (fun kv => fileEntryOf kv.1 kv.2)
    some { folderPath := folderPath, files := files, fileCount := files.length,
           timestamp := now, summary := buildChangeSummary files }

/-- JavaScript `Map.set`: update in place, preserving insertion order, or
append a new binding. -/
def mapSet (m : List (String × String)) (k v : String) : List (String × String) :=
  if m.any (fun kv => kv.1 == k) then
    m.map (fun kv => if kv.1 == k then (k, v) else kv)
  else m ++ [(k, v)]

/-- The debounce state of one watched folder plus its slice of the change
log: the pending path-to-change-type map, the deadline of the pending
debounce timer (notification time + 1000 ms), and the emitted events. -/
structure FolderSim where
  pending : List (String × String)
  deadline : Option Nat
  log : List FileChangeEvent
deriving Repr, DecidableEq

/-- The debounce timer firing at time `now`: the pending map is copied and
cleared, then emitChanges runs on the copy. -/
def flushSim (folderPath : String) (now : Nat) (s : FolderSim) : FolderSim :=
  let changes := s.pending
  let s := { s with pending := [], deadline := none }
  match emitChangesEvent folderPath changes now with
  | none => s
  | some ev => { s with log := s.log ++ [ev] }

/-- Elapse model time to `t`: an armed debounce timer whose deadline has
been reached fires before the next notification is handled. -/
def fireIfDue (folderPath : String) (t : Nat) (s : FolderSim) : FolderSim :=
  match s.deadline with
  | some d => if d ≤ t then flushSim folderPath d s else s
  | none => s

/-- One raw filesystem notification `(time, eventType, filename)` hitting
the fs.watch callback of watchFolder: a previously armed timer whose
deadline has passed fires first; then the ignore and extension filters
run, and a surviving notification is accumulated and the timer re-armed
1000 ms (DEBOUNCE_MS) from now. -/
def stepSim (custom : List String) (folderPath : String) (s : FolderSim)
    (n : Nat × String × String) : FolderSim :=
  let s := fireIfDue folderPath n.1 s
  if shouldIgnore custom n.2.2 then s
  else if !hasWatchedExtension n.2.2 then s
  else { s with pending := mapSet s.pending n.2.2 n.2.1,
                deadline := some (n.1 + 1000) }

/-- Run a folder watch over a finite notification trace; after the last
notification the armed timer, if any, eventually fires. -/
def runFolderSim (custom : List String) (folderPath : String)
    (notifs : List (Nat × String × String)) : FolderSim :=
  let s := notifs.foldl (stepSim custom folderPath) ⟨[], none, []⟩
  match s.deadline with
  | some d => flushSim folderPath d s
  | none => s

/-- A trace of notifications for one fixed path at the given times. -/
def mkSamePathTrace (ts : List Nat) (ty p : String) : List (Nat × String × String) :=
  ts.map (fun t => (t, ty, p))

/-- One WatcherEntry of the folder-to-watcher map (the OS watch handle is
represented by its open flag). -/
structure FwEntry where
  watcherOpen : Bool
  debounceTimer : Option Nat
  pendingChanges : List (String × String)
deriving Repr, DecidableEq

/-- The watchers map of the file-watcher module. -/
structure FwState where
  watchers : List (String × FwEntry)
deriving Repr, DecidableEq

/-- Soundness of one files entry: its path survived both rejection
filters and its sensitive flag is the privacy classification of its
path. -/
def entryOk (custom : List String) (f : FileEntry) : Prop :=
  shouldIgnore custom f.path = false ∧ hasWatchedExtension f.path = true ∧
  f.sensitive = isPrivacySensitive f.path

/-- Invariant of the folder simulation: every pending path survived both
filters and every logged entry is sound. -/
def simInv (custom : List String) (s : FolderSim) : Prop :=
  (∀ kv ∈ s.pending,
     shouldIgnore custom kv.1 = false ∧ hasWatchedExtension kv.1 = true) ∧
  (∀ e ∈ s.log, ∀ f ∈ e.files, entryOk custom f)

/-- Concrete one-notification trace touching a plain source file. -/
def wTrace1 : List (Nat × String × String) := [(0, "change", "a.ts")]

/-- Concrete one-notification trace touching a file in a secrets folder. -/
def wTrace2 : List (Nat × String × String) := [(0, "change", "secrets/config.json")]

/-- The event produced by running `wTrace1`. -/
def wEv1 : FileChangeEvent :=
  { folderPath := "/proj", files := [fileEntryOf "a.ts" "change"], fileCount := 1,
    timestamp := 1000, summary := "1 file(s) changed: 1 .ts" }

/-- The event produced by running `wTrace2`. -/
def wEv2 : FileChangeEvent :=
  { folderPath := "/proj", files := [fileEntryOf "secrets/config.json" "change"],
    fileCount := 1, timestamp := 1000, summary := "1 file(s) changed: 1 .json" }

/-- unwatchFolder(folderPath): when the folder is watched, close the OS
watcher, cancel a pending debounce timer, drop the entry and report
success; otherwise report `{success: false}`.  No path throws. -/
def unwatchFolder (st : FwState) (folderPath : String) : FwState × Bool :=
  match st.watchers.find? (fun kv => kv.1 == folderPath) with
  | some _ => ({ watchers := st.watchers.filter (fun kv => kv.1 != folderPath) }, true)
  | none => (st, false)

end FileW

/-- A tiny heap of array objects holding events of type `α`, used to model
JavaScript array identity: a reference is an index, and two distinct
references are distinct arrays. -/
structure Heap (α : Type) where
  mem : Nat → List α
  size : Nat

/-- Read the contents of an array reference. -/
def readRef {α : Type} (h : Heap α) (r : Nat) : List α := h.mem r

/-- Mutate the array behind a reference in place (models push/splice or
any other rewrite of the referenced array). -/
def writeRef {α : Type} (h : Heap α) (r : Nat) (v : List α) : Heap α :=
  { h with mem := Function.update h.mem r v }

/-- Allocate a fresh array with the given contents. -/
def allocRef {α : Type} (h : Heap α) (v : List α) : Heap α × Nat :=
  ({ mem := Function.update h.mem h.size v, size := h.size + 1 }, h.size)

/-- getProgressLog(): `return [...progressLog]` — a fresh array holding a
copy of the internal progress log. -/
def getProgressLog (h : Heap Mcp.ProgressEvent) (progressLogRef : Nat) :
    Heap Mcp.ProgressEvent × Nat :=
  allocRef h (readRef h progressLogRef)

/-- getCommitLog(): `return [...commitLog]`. -/
def getCommitLog (h : Heap GitW.CommitEvent) (commitLogRef : Nat) :
    Heap GitW.CommitEvent × Nat :=
  allocRef h (readRef h commitLogRef)

/-- getChangeLog(): `return [...changeLog]`. -/
def getChangeLog (h : Heap FileW.FileChangeEvent) (changeLogRef : Nat) :
    Heap FileW.FileChangeEvent × Nat :=
  allocRef h (readRef h changeLogRef)

/-- The `totalEvents` figure the status calls report: the length of the
internal log array. -/
def totalEventsOf {α : Type} (h : Heap α) (r : Nat) : Nat := (readRef h r).length

/-- Concrete heap whose array 0 is a one-event progress log. -/
def wHeapP : Heap Mcp.ProgressEvent := ⟨fun _ => [⟨"s", "t", "i"⟩], 1⟩

/-- Concrete heap whose array 0 is an empty commit log. -/
def wHeapC : Heap GitW.CommitEvent := ⟨fun _ => [], 1⟩

/-- Concrete heap whose array 0 is an empty change log. -/
def wHeapF : Heap FileW.FileChangeEvent := ⟨fun _ => [], 1⟩

/-! Theorems. -/

namespace Mcp

theorem notifyProgressListeners_eq_map (ls : List ProgressListener) (e : ProgressEvent) :
    notifyProgressListeners ls e = ls.map (fun l => (l.1, e)) := by
  induction ls with
  | nil => rfl
  | cons l rest ih =>
    simp only [notifyProgressListeners, List.map_cons]
    cases l.2 e with
    | ok _ => rw [ih]
    | error _ => rw [ih]

/-- C1: a tools/call request naming log_progress with a non-empty string
summary appends exactly one ProgressEvent carrying that summary to the
progress log, invokes every registered listener exactly once with that
event (the call trace is independent of which listeners throw, so a
throwing listener neither stops the loop nor propagates), and returns a
success response whose content is the human-readable confirmation. -/
theorem handleMcpRequest_log_progress_spec
    (st : McpState) (req : JsonRpcRequest) (sessionId now s : String)
    (hm : req.method = "tools/call")
    (hname : jGetOpt req.params "name" = some (J.str "log_progress"))
    (hsum : jGet (mcpCallArgs req.params) "summary" = some (J.str s))
    (hs : s ≠ "") :
    handleMcpRequest st req sessionId now =
      ({ st with progressLog := st.progressLog ++ [⟨s, now, sessionId⟩] },
       some (jsonRpcResponse req.id (J.obj [("content", J.arr
         [J.obj [("type", J.str "text"),
                 ("text", J.str ("Progress logged: \"" ++ s ++ "\""))]])])),
       st.progressListeners.map (fun l => (l.1, (⟨s, now, sessionId⟩ : ProgressEvent)))) := by
  have hbeq : (s == "") = false := beq_eq_false_iff_ne.mpr hs
  simp [handleMcpRequest, hm, hname, hsum, isLogProgress, validSummary, hbeq,
        notifyProgressListeners_eq_map]

/-- Witness for C1: the concrete request `wLogReq` against the state with
an ok listener and a throwing listener — both listeners are called once
with the logged event. -/
theorem handleMcpRequest_log_progress_spec_witness :
    handleMcpRequest wMcpState wLogReq "sess1" "2026-01-01T00:00:00Z" =
      ({ wMcpState with progressLog := [⟨"fixed bug", "2026-01-01T00:00:00Z", "sess1"⟩] },
       some (jsonRpcResponse wLogReq.id (J.obj [("content", J.arr
         [J.obj [("type", J.str "text"),
                 ("text", J.str "Progress logged: \"fixed bug\"")]])])),
       [(0, ⟨"fixed bug", "2026-01-01T00:00:00Z", "sess1"⟩),
        (1, ⟨"fixed bug", "2026-01-01T00:00:00Z", "sess1"⟩)]) :=
  (handleMcpRequest_log_progress_spec wMcpState wLogReq "sess1" "2026-01-01T00:00:00Z"
    "fixed bug" rfl rfl rfl (by decide)).trans rfl

/-- C7: a tools/call request whose name is not log_progress yields a
JSON-RPC error with code -32602, distinct from the parse (-32700) and
invalid-request (-32600) transport codes; the module state is returned
unchanged (in particular the progress log keeps its length) and no
listener is invoked. -/
theorem handleMcpRequest_unknown_tool_spec
    (st : McpState) (req : JsonRpcRequest) (sessionId now : String)
    (hm : req.method = "tools/call")
    (hname : isLogProgress (jGetOpt req.params "name") = false) :
    handleMcpRequest st req sessionId now =
      (st, some (jsonRpcError req.id (-32602)
        ("Unknown tool: " ++ jDisplayOpt (jGetOpt req.params "name"))), [])
    ∧ ((-32602 : Int) ≠ -32700 ∧ (-32602 : Int) ≠ -32600) := by
  refine ⟨?_, by decide, by decide⟩
  simp [handleMcpRequest, hm, hname]

/-- Witness for C7: the concrete request naming the tool "other_tool". -/
theorem handleMcpRequest_unknown_tool_spec_witness :
    handleMcpRequest wMcpState wBadToolReq "sess1" "t0" =
      (wMcpState, some (jsonRpcError wBadToolReq.id (-32602)
        ("Unknown tool: " ++ jDisplayOpt (jGetOpt wBadToolReq.params "name"))), [])
    ∧ ((-32602 : Int) ≠ -32700 ∧ (-32602 : Int) ≠ -32600) :=
  handleMcpRequest_unknown_tool_spec wMcpState wBadToolReq "sess1" "t0" rfl rfl

end Mcp

namespace GitW

theorem commitsSince_append (pre rest : List Commit) (w : Commit)
    (hpre : w.hash ∉ pre.map (fun c => c.hash)) :
    commitsSince (pre ++ w :: rest) w.hash = some rest := by
  induction pre with
  | nil => simp [commitsSince]
  | cons c pre ih =>
    simp only [List.map_cons, List.mem_cons] at hpre
    push_neg at hpre
    show (if c.hash = w.hash then some (pre ++ w :: rest)
          else commitsSince (pre ++ w :: rest) w.hash) = some rest
    rw [if_neg (fun h => hpre.1 h.symm), ih hpre.2]

theorem pollForCommits_success (env : TickEnv) (now : Nat) (st : GitModState)
    (ws : WatchState) (pre rest : List Commit) (w last : Commit)
    (hws : st.watchState = some ws)
    (hlast : ws.lastCommitHash = some w.hash)
    (hhist : env.history = pre ++ w :: rest)
    (hrest : rest.getLast? = some last)
    (hpre : w.hash ∉ pre.map (fun c => c.hash))
    (hne : last.hash ≠ w.hash)
    (hhead : env.headFails = false)
    (hlog : env.logFails = false) :
    pollForCommits env now st =
      ({ st with
          watchState := some { ws with lastCommitHash := some last.hash },
          commitLog := st.commitLog ++ rest.map (mkCommitEvent ws.repoPath env now) },
       rest.map (mkCommitEvent ws.repoPath env now)) := by
  have hrestne : rest ≠ [] := by
    intro h; rw [h] at hrest; exact Option.noConfusion hrest
  have hgl : env.history.getLast? = some last := by
    rw [hhist, List.getLast?_append_cons]
    have h2 : (w :: rest).getLast? = rest.getLast? :=
      List.getLast?_append_of_ne_nil [w] hrestne
    rw [h2, hrest]
  have hlatest : getLatestCommitHash env = some last.hash := by
    unfold getLatestCommitHash
    rw [hhead, hgl]
    rfl
  have hnew : getNewCommitsSince env w.hash = rest.reverse := by
    unfold getNewCommitsSince
    rw [hlog, hhist, commitsSince_append pre rest w hpre]
    rfl
  simp only [pollForCommits, hws, hlatest, hlast, hnew, List.reverse_reverse]
  rw [if_neg hne]

/-- C2: when HEAD has advanced from the stored watermark by new commits
c1, c2, c3 and the git invocations succeed, the poll tick emits exactly
one CommitEvent per new commit in ancestor-to-descendant order c1, c2,
c3, appends them to the commit log in that order, and leaves the
watermark equal to c3's hash. -/
theorem pollForCommits_three_new_commits
    (env : TickEnv) (now : Nat) (st : GitModState) (ws : WatchState)
    (pre : List Commit) (w c1 c2 c3 : Commit)
    (hws : st.watchState = some ws)
    (hlast : ws.lastCommitHash = some w.hash)
    (hhist : env.history = pre ++ w :: [c1, c2, c3])
    (hpre : w.hash ∉ pre.map (fun c => c.hash))
    (hne : c3.hash ≠ w.hash)
    (hhead : env.headFails = false)
    (hlog : env.logFails = false) :
    (pollForCommits env now st).2 =
      [mkCommitEvent ws.repoPath env now c1, mkCommitEvent ws.repoPath env now c2,
       mkCommitEvent ws.repoPath env now c3] ∧
    (pollForCommits env now st).1.commitLog =
      st.commitLog ++
        [mkCommitEvent ws.repoPath env now c1, mkCommitEvent ws.repoPath env now c2,
         mkCommitEvent ws.repoPath env now c3] ∧
    (pollForCommits env now st).1.watchState =
      some { ws with lastCommitHash := some c3.hash } := by
  rw [pollForCommits_success env now st ws pre [c1, c2, c3] w c3 hws hlast hhist rfl hpre
      hne hhead hlog]
  simp

/-- Witness for C2: the four-commit repository with watermark h0. -/
theorem pollForCommits_three_new_commits_witness :
    (pollForCommits wTickOk 7 wGitState).2 =
      [mkCommitEvent "/repo" wTickOk 7 wCommit1, mkCommitEvent "/repo" wTickOk 7 wCommit2,
       mkCommitEvent "/repo" wTickOk 7 wCommit3] ∧
    (pollForCommits wTickOk 7 wGitState).1.commitLog =
      wGitState.commitLog ++
        [mkCommitEvent "/repo" wTickOk 7 wCommit1, mkCommitEvent "/repo" wTickOk 7 wCommit2,
         mkCommitEvent "/repo" wTickOk 7 wCommit3] ∧
    (pollForCommits wTickOk 7 wGitState).1.watchState =
      some { repoPath := "/repo", lastCommitHash := some wCommit3.hash, timerId := 0 } :=
  pollForCommits_three_new_commits wTickOk 7 wGitState ⟨"/repo", some "h0", 0⟩ []
    wCommit0 wCommit1 wCommit2 wCommit3 rfl rfl rfl (by simp) (by decide) rfl rfl

/-- C5 counterexample: on a tick where HEAD advanced to h1 but the commit
enumeration (git log) fails, nothing is emitted yet the watermark still
advances to h1; a later fully successful tick (after one more commit h2)
emits only h2, and the commit h1 never appears in the commit log — it is
permanently unemitted, contradicting the claim that a transient
subprocess failure never loses a newly arrived commit. -/
theorem poll_log_failure_loses_commit :
    (pollForCommits wTickLogFails 5 wGitState).2 = [] ∧
    (pollForCommits wTickLogFails 5 wGitState).1.watchState =
      some ⟨"/repo", some "h1", 0⟩ ∧
    (pollForCommits wTickLater 10 (pollForCommits wTickLogFails 5 wGitState).1).2 =
      [⟨"/repo", "main", "h2", "ada", "d2", "third", "s2\n\nD2", 10⟩] ∧
    (pollForCommits wTickLater 10 (pollForCommits wTickLogFails 5 wGitState).1).1.commitLog =
      [⟨"/repo", "main", "h2", "ada", "d2", "third", "s2\n\nD2", 10⟩] := by decide

/-- C5 amended: a failing tick never stops the watch (pollForCommits
never clears the watch state); a transient failure of the HEAD query
leaves the state completely unchanged, so the commits are emitted by a
later successful tick; but (per the counterexample) a failure of the
commit enumeration still advances the watermark and skips commits. -/
theorem poll_transient_failure_semantics :
    (∀ (env : TickEnv) (now : Nat) (st : GitModState),
       env.headFails = true → pollForCommits env now st = (st, [])) ∧
    (∀ (env : TickEnv) (now : Nat) (st : GitModState),
       ((pollForCommits env now st).1.watchState).isSome = (st.watchState).isSome) ∧
    (∀ (envF env : TickEnv) (nowF now : Nat) (st : GitModState) (ws : WatchState)
       (pre rest : List Commit) (w last : Commit),
       envF.headFails = true →
       st.watchState = some ws →
       ws.lastCommitHash = some w.hash →
       env.history = pre ++ w :: rest →
       rest.getLast? = some last →
       w.hash ∉ pre.map (fun c => c.hash) →
       last.hash ≠ w.hash →
       env.headFails = false →
       env.logFails = false →
       (pollForCommits env now (pollForCommits envF nowF st).1).2 =
         rest.map (mkCommitEvent ws.repoPath env now)) := by
  have hfail : ∀ (env : TickEnv) (now : Nat) (st : GitModState),
      env.headFails = true → pollForCommits env now st = (st, []) := by
    intro env now st h
    unfold pollForCommits
    cases hws : st.watchState with
    | none => rfl
    | some ws => simp [getLatestCommitHash, h]
  refine ⟨hfail, ?_, ?_⟩
  · intro env now st
    unfold pollForCommits
    cases hws : st.watchState with
    | none => simp [hws]
    | some ws =>
      cases hh : getLatestCommitHash env with
      | none => simp [hws]
      | some ch => simp [hws]
  · intro envF env nowF now st ws pre rest w last hF hws hlast hhist hrest hpre hne hhead hlog
    rw [hfail envF nowF st hF]
    rw [pollForCommits_success env now st ws pre rest w last hws hlast hhist hrest hpre
        hne hhead hlog]

/-- Witness for C5 amended: a HEAD-query failure tick followed by a fully
successful tick over the four-commit repository. -/
theorem poll_transient_failure_semantics_witness :
    pollForCommits wTickHeadFails 3 wGitState = (wGitState, []) ∧
    ((pollForCommits wTickHeadFails 3 wGitState).1.watchState).isSome =
      (wGitState.watchState).isSome ∧
    (pollForCommits wTickOk 7 (pollForCommits wTickHeadFails 3 wGitState).1).2 =
      [wCommit1, wCommit2, wCommit3].map (mkCommitEvent "/repo" wTickOk 7) :=
  ⟨poll_transient_failure_semantics.1 wTickHeadFails 3 wGitState rfl,
   poll_transient_failure_semantics.2.1 wTickHeadFails 3 wGitState,
   poll_transient_failure_semantics.2.2 wTickHeadFails wTickOk 3 7 wGitState
     ⟨"/repo", some "h0", 0⟩ [] [wCommit1, wCommit2, wCommit3] wCommit0 wCommit3
     rfl rfl rfl rfl rfl (by simp) (by decide) rfl rfl⟩

theorem stopWatching_watchState (st : GitModState) : (stopWatching st).watchState = none := by
  unfold stopWatching
  cases h : st.watchState with
  | none => exact h
  | some ws => rfl

theorem timerInv_stopWatching (st : GitModState) (h : TimerInv st) :
    TimerInv (stopWatching st) := by
  unfold stopWatching TimerInv at *
  cases hws : st.watchState with
  | none => rw [hws] at h; simpa [hws] using h
  | some ws =>
    rw [hws] at h
    simp [hws, h]

theorem timerInv_startWatching (env : StartEnv) (st : GitModState) (h : TimerInv st) :
    TimerInv (startWatching env st).1 := by
  have h' := timerInv_stopWatching st h
  have hnone := stopWatching_watchState st
  have hA : (stopWatching st).activeTimers = [] := by
    unfold TimerInv at h'
    rw [hnone] at h'
    exact h'
  unfold startWatching
  split
  · exact h'
  · split
    · exact h'
    · unfold TimerInv
      simp [hA]

theorem timerInv_poll (env : TickEnv) (now : Nat) (st : GitModState) (h : TimerInv st) :
    TimerInv (pollForCommits env now st).1 := by
  unfold pollForCommits
  cases hws : st.watchState with
  | none => simpa using h
  | some ws =>
    cases hh : getLatestCommitHash env with
    | none => simpa using h
    | some ch =>
      unfold TimerInv at h ⊢
      rw [hws] at h
      simp [h]

theorem timerInv_gitStep (st : GitModState) (op : GitOp) (h : TimerInv st) :
    TimerInv (gitStep st op) := by
  cases op with
  | start env => exact timerInv_startWatching env st h
  | stop => exact timerInv_stopWatching st h
  | poll env now => exact timerInv_poll env now st h

theorem timerInv_gitRun (ops : List GitOp) :
    ∀ st : GitModState, TimerInv st → TimerInv (gitRun st ops) := by
  induction ops with
  | nil => intro st h; exact h
  | cons op ops ih =>
    intro st h
    simpa [gitRun] using ih (gitStep st op) (timerInv_gitStep st op h)

theorem poll_not_watching (env : TickEnv) (now : Nat) (st : GitModState)
    (h : st.watchState = none) : pollForCommits env now st = (st, []) := by
  unfold pollForCommits
  rw [h]

theorem poll_at_head (tick : TickEnv) (now : Nat) (st : GitModState) (ws : WatchState)
    (hws : st.watchState = some ws)
    (hlast : ws.lastCommitHash = tick.history.getLast?.map (fun c => c.hash)) :
    (pollForCommits tick now st).2 = [] := by
  unfold pollForCommits
  rw [hws]
  cases hh : getLatestCommitHash tick with
  | none => rfl
  | some ch =>
    have hl : ws.lastCommitHash = some ch := by
      unfold getLatestCommitHash at hh
      rw [hlast]
      split at hh
      · exact Option.noConfusion hh
      · exact hh
    simp [hl]

theorem startWatching_poll_no_new (env : StartEnv) (tick : TickEnv) (now : Nat)
    (st : GitModState) (hh : tick.history = env.history) :
    (pollForCommits tick now (startWatching env st).1).2 = [] := by
  unfold startWatching
  split
  · rw [poll_not_watching tick now _ (stopWatching_watchState st)]
  · split
    · rw [poll_not_watching tick now _ (stopWatching_watchState st)]
    · exact poll_at_head tick now _ _ rfl (by rw [hh])

theorem stopWatching_commitLog (st : GitModState) :
    (stopWatching st).commitLog = st.commitLog := by
  unfold stopWatching
  cases h : st.watchState <;> rfl

/-- C8: over every operation sequence from the initial state at most one
poll interval timer is live (so at most one repository is watched at a
time, startWatching stopping any previous watch first); startWatching
itself emits no CommitEvent, and after starting the same repository twice
without an intervening commit the next poll tick emits nothing — no
CommitEvent is duplicated. -/
theorem git_single_watch_spec :
    (∀ ops : List GitOp, (gitRun gitInit ops).activeTimers.length ≤ 1) ∧
    (∀ (env : StartEnv) (st : GitModState),
       (startWatching env st).1.commitLog = st.commitLog) ∧
    (∀ (env : StartEnv) (tick : TickEnv) (now : Nat) (st : GitModState),
       tick.history = env.history →
       (pollForCommits tick now (startWatching env (startWatching env st).1).1).2 = []) := by
  refine ⟨?_, ?_, ?_⟩
  · intro ops
    have h := timerInv_gitRun ops gitInit rfl
    unfold TimerInv at h
    cases hws : (gitRun gitInit ops).watchState with
    | none => rw [hws] at h; simp [h]
    | some ws => rw [hws] at h; simp [h]
  · intro env st
    unfold startWatching
    split
    · exact stopWatching_commitLog st
    · split
      · exact stopWatching_commitLog st
      · exact stopWatching_commitLog st
  · intro env tick now st hh
    exact startWatching_poll_no_new env tick now (startWatching env st).1 hh

/-- Witness for C8: a start-start-poll sequence on the one-commit repo. -/
theorem git_single_watch_spec_witness :
    (gitRun gitInit [GitOp.start wStartEnv, GitOp.start wStartEnv,
        GitOp.poll wTickNoNew 3]).activeTimers.length ≤ 1 ∧
    (startWatching wStartEnv wGitState).1.commitLog = wGitState.commitLog ∧
    (pollForCommits wTickNoNew 3
        (startWatching wStartEnv (startWatching wStartEnv gitInit).1).1).2 = [] :=
  ⟨git_single_watch_spec.1 [GitOp.start wStartEnv, GitOp.start wStartEnv,
      GitOp.poll wTickNoNew 3],
   git_single_watch_spec.2.1 wStartEnv wGitState,
   git_single_watch_spec.2.2 wStartEnv wTickNoNew 3 gitInit rfl⟩

end GitW

namespace FileW

theorem mapSet_forall_keys (m : List (String × String)) (k v : String)
    (P : String → Prop) (hm : ∀ kv ∈ m, P kv.1) (hk : P k) :
    ∀ kv ∈ mapSet m k v, P kv.1 := by
  unfold mapSet
  split
  · intro kv hkv
    obtain ⟨kv0, h0, heq⟩ := List.mem_map.mp hkv
    by_cases hb : (kv0.1 == k) = true
    · rw [if_pos hb] at heq
      rw [← heq]
      exact hk
    · rw [if_neg hb] at heq
      rw [← heq]
      exact hm kv0 h0
  · intro kv hkv
    rcases List.mem_append.mp hkv with h | h
    · exact hm kv h
    · rw [List.mem_singleton.mp h]
      exact hk

theorem simInv_flush (custom : List String) (fp : String) (now : Nat) (s : FolderSim)
    (h : simInv custom s) : simInv custom (flushSim fp now s) := by
  obtain ⟨hp, hl⟩ := h
  by_cases hempty : s.pending.isEmpty = true
  · simp only [flushSim, emitChangesEvent, hempty, if_true]
    exact ⟨fun kv hkv => absurd hkv (List.not_mem_nil kv), hl⟩
  · have hempty2 : s.pending.isEmpty = false := eq_false_of_ne_true hempty
    simp only [flushSim, emitChangesEvent, hempty2, Bool.false_eq_true, if_false]
    refine ⟨fun kv hkv => absurd hkv (List.not_mem_nil kv), ?_⟩
    intro e he f hf
    rcases List.mem_append.mp he with hmem | hmem
    · exact hl e hmem f hf
    · rw [List.mem_singleton.mp hmem] at hf
      obtain ⟨kv, hkv, hfe⟩ := List.mem_map.mp hf
      rw [← hfe]
      exact ⟨(hp kv hkv).1, (hp kv hkv).2, rfl⟩

theorem simInv_fireIfDue (custom : List String) (fp : String) (t : Nat) (s : FolderSim)
    (h : simInv custom s) : simInv custom (fireIfDue fp t s) := by
  unfold fireIfDue
  cases hd : s.deadline with
  | none => exact h
  | some d =>
    show simInv custom (if d ≤ t then flushSim fp d s else s)
    split
    · exact simInv_flush custom fp d s h
    · exact h

theorem simInv_step (custom : List String) (fp : String) (s : FolderSim)
    (n : Nat × String × String) (h : simInv custom s) :
    simInv custom (stepSim custom fp s n) := by
  obtain ⟨hp1, hl1⟩ := simInv_fireIfDue custom fp n.1 s h
  simp only [stepSim]
  by_cases hig : shouldIgnore custom n.2.2 = true
  · rw [if_pos hig]; exact ⟨hp1, hl1⟩
  · rw [if_neg hig]
    by_cases hext : (!hasWatchedExtension n.2.2) = true
    · rw [if_pos hext]; exact ⟨hp1, hl1⟩
    · rw [if_neg hext]
      refine ⟨?_, hl1⟩
      exact mapSet_forall_keys (fireIfDue fp n.1 s).pending n.2.2 n.2.1
        (fun q => shouldIgnore custom q = false ∧ hasWatchedExtension q = true) hp1
        ⟨eq_false_of_ne_true hig, by simpa using hext⟩

theorem simInv_foldl (custom : List String) (fp : String) :
    ∀ (notifs : List (Nat × String × String)) (s : FolderSim),
      simInv custom s → simInv custom (notifs.foldl (stepSim custom fp) s) := by
  intro notifs
  induction notifs with
  | nil => intro s h; exact h
  | cons n ns ih =>
    intro s h
    exact ih (stepSim custom fp s n) (simInv_step custom fp s n h)

theorem runFolderSim_inv (custom : List String) (fp : String)
    (notifs : List (Nat × String × String)) :
    simInv custom (runFolderSim custom fp notifs) := by
  have h := simInv_foldl custom fp notifs ⟨[], none, []⟩
    ⟨fun kv hkv => absurd hkv (List.not_mem_nil kv),
     fun e he => absurd he (List.not_mem_nil e)⟩
  simp only [runFolderSim]
  cases hd : (notifs.foldl (stepSim custom fp) ⟨[], none, []⟩).deadline with
  | none => exact h
  | some d => exact simInv_flush custom fp d _ h

/-- C4 counterexample: ".env" matches the privacy patterns, yet a change
notification for it produces no FileChangeEvent at all — it is rejected
by the extension allow-list before ever reaching the pending map — so no
event carrying it with sensitive: true is ever produced. -/
theorem sensitive_env_file_produces_no_event :
    isPrivacySensitive ".env" = true ∧
    hasWatchedExtension ".env" = false ∧
    runFolderSim [] "/proj" [(0, "change", ".env")] = ⟨[], none, []⟩ := by decide

/-- C4 (amended): a path with an ignored segment never appears in any
FileChangeEvent; a path failing the extension allow-list never appears in
any FileChangeEvent; and every file entry that is reported carries
sensitive equal to the privacy classification of its path (paths matching
secrets patterns but failing the filters — such as ".env" — produce no
event at all, per the counterexample). -/
theorem fw_filter_spec :
    (∀ (custom : List String) (fp p : String) (notifs : List (Nat × String × String)),
       shouldIgnore custom p = true →
       ∀ e ∈ (runFolderSim custom fp notifs).log, ∀ f ∈ e.files, f.path ≠ p) ∧
    (∀ (custom : List String) (fp p : String) (notifs : List (Nat × String × String)),
       hasWatchedExtension p = false →
       ∀ e ∈ (runFolderSim custom fp notifs).log, ∀ f ∈ e.files, f.path ≠ p) ∧
    (∀ (custom : List String) (fp : String) (notifs : List (Nat × String × String)),
       ∀ e ∈ (runFolderSim custom fp notifs).log, ∀ f ∈ e.files,
         f.sensitive = isPrivacySensitive f.path) := by
  refine ⟨?_, ?_, ?_⟩
  · intro custom fp p notifs hp e he f hf hfp
    obtain ⟨h1, _, _⟩ := (runFolderSim_inv custom fp notifs).2 e he f hf
    rw [hfp] at h1
    rw [h1] at hp
    exact Bool.noConfusion hp
  · intro custom fp p notifs hp e he f hf hfp
    obtain ⟨_, h2, _⟩ := (runFolderSim_inv custom fp notifs).2 e he f hf
    rw [hfp] at h2
    rw [h2] at hp
    exact Bool.noConfusion hp
  · intro custom fp notifs e he f hf
    exact ((runFolderSim_inv custom fp notifs).2 e he f hf).2.2

/-- Witness for C4: concrete runs — "node_modules/x.js" and "photo.png"
never reach the log of the trace touching "a.ts", and the reported entry
for "secrets/config.json" carries its privacy classification. -/
theorem fw_filter_spec_witness :
    (fileEntryOf "a.ts" "change").path ≠ "node_modules/x.js" ∧
    (fileEntryOf "a.ts" "change").path ≠ "photo.png" ∧
    (fileEntryOf "secrets/config.json" "change").sensitive =
      isPrivacySensitive (fileEntryOf "secrets/config.json" "change").path :=
  ⟨fw_filter_spec.1 [] "/proj" "node_modules/x.js" wTrace1 (by decide) wEv1 (by decide)
     (fileEntryOf "a.ts" "change") (by decide),
   fw_filter_spec.2.1 [] "/proj" "photo.png" wTrace1 (by decide) wEv1 (by decide)
     (fileEntryOf "a.ts" "change") (by decide),
   fw_filter_spec.2.2 [] "/proj" wTrace2 wEv2 (by decide)
     (fileEntryOf "secrets/config.json" "change") (by decide)⟩

theorem getLastD_mem {α : Type} : ∀ (l : List α) (d : α), l ≠ [] → l.getLastD d ∈ l := by
  intro l
  induction l with
  | nil => intro d h; exact absurd rfl h
  | cons a as ih =>
    intro d _
    rw [List.getLastD_cons]
    cases has : as with
    | nil => simp
    | cons b bs =>
      rw [← has]
      exact List.mem_cons_of_mem a (ih a (by rw [has]; exact List.cons_ne_nil b bs))

theorem shouldIgnore_of_basename_dotgit (custom : List String) (p : String)
    (hstrip : stripTrailingSeps p = p)
    (hstart : strStartsWith (pathBasename p) ".git" = true) :
    shouldIgnore custom p = true := by
  unfold pathBasename at hstart
  rw [hstrip] at hstart
  have hne : splitPath p ≠ [] := by
    intro hcon
    rw [hcon] at hstart
    exact absurd hstart (by decide)
  have hmem : (splitPath p).getLastD "" ∈ splitPath p := getLastD_mem _ "" hne
  unfold shouldIgnore
  rw [List.any_eq_true]
  refine ⟨(splitPath p).getLastD "", hmem, ?_⟩
  rw [List.any_eq_true]
  refine ⟨".git", List.mem_append.mpr (Or.inl (by decide)), ?_⟩
  rw [hstart]
  simp

/-- C10: any file whose basename begins with ".git" — in particular
".gitignore", even though ".gitignore" is listed in WATCHED_EXTENSIONS —
satisfies shouldIgnore via the ".git" default ignore pattern, so a change
to a file named ".gitignore" never contributes to any FileChangeEvent. -/
theorem gitignore_always_ignored :
    (∀ (custom : List String) (p : String),
       stripTrailingSeps p = p →
       strStartsWith (pathBasename p) ".git" = true →
       shouldIgnore custom p = true) ∧
    ".gitignore" ∈ WATCHED_EXTENSIONS ∧
    (∀ (custom : List String) (fp : String) (notifs : List (Nat × String × String)),
       ∀ e ∈ (runFolderSim custom fp notifs).log, ∀ f ∈ e.files,
         f.path ≠ ".gitignore") := by
  refine ⟨shouldIgnore_of_basename_dotgit, by decide, ?_⟩
  intro custom fp notifs e he f hf hfp
  obtain ⟨h1, _, _⟩ := (runFolderSim_inv custom fp notifs).2 e he f hf
  have hig := shouldIgnore_of_basename_dotgit custom ".gitignore" (by decide) (by decide)
  rw [hfp] at h1
  rw [h1] at hig
  exact Bool.noConfusion hig

theorem mapSet_self (p v w : String) : mapSet [(p, v)] p w = [(p, w)] := by
  simp [mapSet]

theorem stepSim_relevant_none (custom : List String) (fp ty p : String) (t : Nat)
    (pend : List (String × String)) (log : List FileChangeEvent)
    (hig : shouldIgnore custom p = false) (hext : hasWatchedExtension p = true) :
    stepSim custom fp ⟨pend, none, log⟩ (t, ty, p) =
      ⟨mapSet pend p ty, some (t + 1000), log⟩ := by
  simp [stepSim, fireIfDue, hig, hext]

theorem stepSim_relevant_quiet (custom : List String) (fp ty p : String)
    (t d : Nat) (pend : List (String × String)) (log : List FileChangeEvent)
    (hig : shouldIgnore custom p = false) (hext : hasWatchedExtension p = true)
    (hq : ¬ d ≤ t) :
    stepSim custom fp ⟨pend, some d, log⟩ (t, ty, p) =
      ⟨mapSet pend p ty, some (t + 1000), log⟩ := by
  simp [stepSim, fireIfDue, hig, hext, hq]

theorem flushSim_singleton (fp p v : String) (d : Nat) (dl : Option Nat)
    (log : List FileChangeEvent) :
    flushSim fp d ⟨[(p, v)], dl, log⟩ =
      ⟨[], none,
       log ++ [{ folderPath := fp, files := [fileEntryOf p v], fileCount := 1,
                 timestamp := d, summary := buildChangeSummary [fileEntryOf p v] }]⟩ := by
  simp [flushSim, emitChangesEvent]

theorem stepSim_relevant_fire (custom : List String) (fp ty p v : String)
    (t d : Nat) (log : List FileChangeEvent)
    (hig : shouldIgnore custom p = false) (hext : hasWatchedExtension p = true)
    (hd : d ≤ t) :
    stepSim custom fp ⟨[(p, v)], some d, log⟩ (t, ty, p) =
      ⟨[(p, ty)], some (t + 1000),
       log ++ [{ folderPath := fp, files := [fileEntryOf p v], fileCount := 1,
                 timestamp := d, summary := buildChangeSummary [fileEntryOf p v] }]⟩ := by
  simp [stepSim, fireIfDue, flushSim, emitChangesEvent, hig, hext, hd, mapSet]

theorem foldl_quiet (custom : List String) (fp ty p : String)
    (hig : shouldIgnore custom p = false) (hext : hasWatchedExtension p = true) :
    ∀ (ts : List Nat) (t0 : Nat) (log : List FileChangeEvent),
      List.Chain' (fun a b => b < a + 1000) (t0 :: ts) →
      (mkSamePathTrace ts ty p).foldl (stepSim custom fp)
          ⟨[(p, ty)], some (t0 + 1000), log⟩ =
        ⟨[(p, ty)], some (ts.getLastD t0 + 1000), log⟩ := by
  intro ts
  induction ts with
  | nil => intro t0 log _; rfl
  | cons t1 ts ih =>
    intro t0 log hch
    rw [List.chain'_cons] at hch
    have hq : ¬ (t0 + 1000 ≤ t1) := Nat.not_le.mpr hch.1
    have htr : mkSamePathTrace (t1 :: ts) ty p = (t1, ty, p) :: mkSamePathTrace ts ty p := rfl
    rw [htr, List.foldl_cons,
        stepSim_relevant_quiet custom fp ty p t1 (t0 + 1000) [(p, ty)] log hig hext hq,
        mapSet_self, ih t1 log hch.2, List.getLastD_cons]

theorem foldl_spread (custom : List String) (fp ty p : String)
    (hig : shouldIgnore custom p = false) (hext : hasWatchedExtension p = true) :
    ∀ (ts : List Nat) (t0 : Nat) (log : List FileChangeEvent),
      List.Chain' (fun a b => a + 1000 < b) (t0 :: ts) →
      ∃ log2 : List FileChangeEvent,
        (mkSamePathTrace ts ty p).foldl (stepSim custom fp)
            ⟨[(p, ty)], some (t0 + 1000), log⟩ =
          ⟨[(p, ty)], some (ts.getLastD t0 + 1000), log2⟩ ∧
        log2.length = log.length + ts.length := by
  intro ts
  induction ts with
  | nil => intro t0 log _; exact ⟨log, rfl, rfl⟩
  | cons t1 ts ih =>
    intro t0 log hch
    rw [List.chain'_cons] at hch
    have hd : t0 + 1000 ≤ t1 := Nat.le_of_lt hch.1
    have htr : mkSamePathTrace (t1 :: ts) ty p = (t1, ty, p) :: mkSamePathTrace ts ty p := rfl
    rw [htr, List.foldl_cons,
        stepSim_relevant_fire custom fp ty p ty t1 (t0 + 1000) log hig hext hd]
    obtain ⟨log2, heq, hlen⟩ := ih t1 (log ++
      [{ folderPath := fp, files := [fileEntryOf p ty], fileCount := 1,
         timestamp := t0 + 1000, summary := buildChangeSummary [fileEntryOf p ty] }]) hch.2
    rw [heq]
    refine ⟨log2, by rw [List.getLastD_cons], ?_⟩
    simp only [List.length_append, List.length_cons, List.length_nil] at hlen ⊢
    omega

/-- C6: with a relevant path p, N ≥ 1 notifications for p whose
consecutive gaps are all under the 1-second debounce window produce
exactly one FileChangeEvent in which p appears exactly once (its files
array is the singleton entry for p) and leave the pending map empty;
N notifications whose consecutive gaps all exceed the window produce
exactly N FileChangeEvents. -/
theorem fw_debounce_spec
    (custom : List String) (fp ty p : String) (t0 : Nat) (ts : List Nat)
    (hig : shouldIgnore custom p = false) (hext : hasWatchedExtension p = true) :
    (List.Chain' (fun a b => b < a + 1000) (t0 :: ts) →
       runFolderSim custom fp (mkSamePathTrace (t0 :: ts) ty p) =
         ⟨[], none,
          [{ folderPath := fp, files := [fileEntryOf p ty], fileCount := 1,
             timestamp := ts.getLastD t0 + 1000,
             summary := buildChangeSummary [fileEntryOf p ty] }]⟩) ∧
    (List.Chain' (fun a b => a + 1000 < b) (t0 :: ts) →
       (runFolderSim custom fp (mkSamePathTrace (t0 :: ts) ty p)).log.length =
         (t0 :: ts).length) := by
  have hfirst : stepSim custom fp ⟨[], none, []⟩ (t0, ty, p) =
      ⟨[(p, ty)], some (t0 + 1000), []⟩ := by
    rw [stepSim_relevant_none custom fp ty p t0 [] [] hig hext]
    rfl
  have htr : mkSamePathTrace (t0 :: ts) ty p = (t0, ty, p) :: mkSamePathTrace ts ty p := rfl
  constructor
  · intro hch
    simp only [runFolderSim]
    rw [htr, List.foldl_cons, hfirst, foldl_quiet custom fp ty p hig hext ts t0 [] hch]
    exact flushSim_singleton fp p ty (ts.getLastD t0 + 1000) (some (ts.getLastD t0 + 1000)) []
  · intro hch
    simp only [runFolderSim]
    rw [htr, List.foldl_cons, hfirst]
    obtain ⟨log2, heq, hlen⟩ := foldl_spread custom fp ty p hig hext ts t0 [] hch
    rw [heq]
    show (flushSim fp (ts.getLastD t0 + 1000)
        ⟨[(p, ty)], some (ts.getLastD t0 + 1000), log2⟩).log.length = (t0 :: ts).length
    rw [flushSim_singleton]
    simp only [List.length_append, List.length_cons, List.length_nil] at hlen ⊢
    omega

/-- Witness for C6: three rapid saves of "a.ts" collapse into one event;
three saves spaced over a second apart give three events. -/
theorem fw_debounce_spec_witness :
    runFolderSim [] "/proj" (mkSamePathTrace [0, 100, 200] "change" "a.ts") =
      ⟨[], none,
       [{ folderPath := "/proj", files := [fileEntryOf "a.ts" "change"], fileCount := 1,
          timestamp := [100, 200].getLastD 0 + 1000,
          summary := buildChangeSummary [fileEntryOf "a.ts" "change"] }]⟩ ∧
    (runFolderSim [] "/proj" (mkSamePathTrace [0, 2000, 4000] "change" "a.ts")).log.length =
      ([0, 2000, 4000] : List Nat).length :=
  ⟨(fw_debounce_spec [] "/proj" "change" "a.ts" 0 [100, 200] (by decide) (by decide)).1
     (List.Chain.cons (by decide) (List.Chain.cons (by decide) List.Chain.nil)),
   (fw_debounce_spec [] "/proj" "change" "a.ts" 0 [2000, 4000] (by decide) (by decide)).2
     (List.Chain.cons (by decide) (List.Chain.cons (by decide) List.Chain.nil))⟩

/-- Witness for C10: the concrete file ".gitignore" is ignored, and the
entry logged for "a.ts" is not ".gitignore". -/
theorem gitignore_always_ignored_witness :
    shouldIgnore [] ".gitignore" = true ∧
    ".gitignore" ∈ WATCHED_EXTENSIONS ∧
    (fileEntryOf "a.ts" "change").path ≠ ".gitignore" :=
  ⟨gitignore_always_ignored.1 [] ".gitignore" (by decide) (by decide),
   gitignore_always_ignored.2.1,
   gitignore_always_ignored.2.2 [] "/proj" wTrace1 wEv1 (by decide)
     (fileEntryOf "a.ts" "change") (by decide)⟩

end FileW

/-- C3 counterexample: unwatchFolder on a folder that is not being
watched does return (nothing throws) but reports failure, not success:
its result on the empty watchers map is `{success: false}`. -/
theorem unwatchFolder_not_watched_reports_failure :
    FileW.unwatchFolder ⟨[]⟩ "/some/folder" = (⟨[]⟩, false) := rfl

/-- C3 amended: no stop operation throws when its component is not
running — stopServer resolves leaving the state untouched, stopWatching
is a no-op — but unwatchFolder on a non-watched folder, while returning
normally, reports `success: false` rather than success. -/
theorem stop_not_running_spec :
    (∀ st : Mcp.McpServerState, st.server = false → Mcp.stopServer st = st) ∧
    (∀ st : GitW.GitModState, st.watchState = none → GitW.stopWatching st = st) ∧
    (∀ (st : FileW.FwState) (p : String),
       st.watchers.find? (fun kv => kv.1 == p) = none →
       FileW.unwatchFolder st p = (st, false)) := by
  refine ⟨?_, ?_, ?_⟩
  · intro st h
    unfold Mcp.stopServer
    rw [h]
    rfl
  · intro st h
    unfold GitW.stopWatching
    rw [h]
  · intro st p h
    unfold FileW.unwatchFolder
    rw [h]

/-- Witness for C3 amended: the three components in their not-running
states. -/
theorem stop_not_running_spec_witness :
    Mcp.stopServer ⟨false, []⟩ = ⟨false, []⟩ ∧
    GitW.stopWatching GitW.gitInit = GitW.gitInit ∧
    FileW.unwatchFolder ⟨[]⟩ "/some/other" = (⟨[]⟩, false) :=
  ⟨stop_not_running_spec.1 ⟨false, []⟩ rfl,
   stop_not_running_spec.2.1 GitW.gitInit rfl,
   stop_not_running_spec.2.2 ⟨[]⟩ "/some/other" rfl⟩

theorem allocRef_copy_spec {α : Type} (h : Heap α) (r : Nat) (hr : r < h.size) :
    readRef (allocRef h (readRef h r)).1 (allocRef h (readRef h r)).2 = readRef h r ∧
    (allocRef h (readRef h r)).2 ≠ r ∧
    (∀ v, readRef (writeRef (allocRef h (readRef h r)).1 (allocRef h (readRef h r)).2 v) r =
          readRef h r) := by
  have hne : h.size ≠ r := ne_of_gt hr
  refine ⟨?_, hne, ?_⟩
  · simp [allocRef, readRef, Function.update_same]
  · intro v
    simp only [allocRef, writeRef, readRef]
    rw [Function.update_noteq (fun hc => hne hc.symm),
        Function.update_noteq (fun hc => hne hc.symm)]

/-- C9: each log query (getProgressLog, getCommitLog, getChangeLog)
returns a fresh array whose contents equal the internal log at call time;
the returned reference is distinct from the internal one, and after any
mutation of the returned array the internal log — hence also the
totalEvents figure any status or subsequent query reports — is
unchanged. -/
theorem log_getters_return_fresh_copies :
    (∀ (h : Heap Mcp.ProgressEvent) (r : Nat), r < h.size →
       readRef (getProgressLog h r).1 (getProgressLog h r).2 = readRef h r ∧
       (getProgressLog h r).2 ≠ r ∧
       (∀ v, readRef (writeRef (getProgressLog h r).1 (getProgressLog h r).2 v) r =
               readRef h r ∧
             totalEventsOf (writeRef (getProgressLog h r).1 (getProgressLog h r).2 v) r =
               totalEventsOf h r)) ∧
    (∀ (h : Heap GitW.CommitEvent) (r : Nat), r < h.size →
       readRef (getCommitLog h r).1 (getCommitLog h r).2 = readRef h r ∧
       (getCommitLog h r).2 ≠ r ∧
       (∀ v, readRef (writeRef (getCommitLog h r).1 (getCommitLog h r).2 v) r =
               readRef h r ∧
             totalEventsOf (writeRef (getCommitLog h r).1 (getCommitLog h r).2 v) r =
               totalEventsOf h r)) ∧
    (∀ (h : Heap FileW.FileChangeEvent) (r : Nat), r < h.size →
       readRef (getChangeLog h r).1 (getChangeLog h r).2 = readRef h r ∧
       (getChangeLog h r).2 ≠ r ∧
       (∀ v, readRef (writeRef (getChangeLog h r).1 (getChangeLog h r).2 v) r =
               readRef h r ∧
             totalEventsOf (writeRef (getChangeLog h r).1 (getChangeLog h r).2 v) r =
               totalEventsOf h r)) := by
  refine ⟨?_, ?_, ?_⟩ <;>
  · intro h r hr
    obtain ⟨h1, h2, h3⟩ := allocRef_copy_spec h r hr
    exact ⟨h1, h2, fun v => ⟨h3 v, congrArg List.length (h3 v)⟩⟩

/-- Witness for C9: a one-array heap holding each kind of log, with the
returned copy of the change log mutated to the empty array. -/
theorem log_getters_return_fresh_copies_witness :
    (readRef (getProgressLog wHeapP 0).1 (getProgressLog wHeapP 0).2 = readRef wHeapP 0) ∧
    (getCommitLog wHeapC 0).2 ≠ 0 ∧
    (readRef (writeRef (getChangeLog wHeapF 0).1 (getChangeLog wHeapF 0).2 []) 0 =
      readRef wHeapF 0 ∧
     totalEventsOf (writeRef (getChangeLog wHeapF 0).1 (getChangeLog wHeapF 0).2 []) 0 =
      totalEventsOf wHeapF 0) :=
  ⟨(log_getters_return_fresh_copies.1 wHeapP 0 (by decide)).1,
   (log_getters_return_fresh_copies.2.1 wHeapC 0 (by decide)).2.1,
   (log_getters_return_fresh_copies.2.2 wHeapF 0 (by decide)).2.2 []⟩

end Brick
